import Mathlib

/-
Verification of the change-point / event-impact analysis engine
(`src/scripts/event_change_analysis.py`, class `EventChangeAnalyzer`).

Shallow embedding conventions:
* timestamps (`pd.Timestamp`) are integer day numbers, so `date ± timedelta(days=d)`
  becomes integer addition/subtraction;
* floating-point prices are exact rationals (ℚ); the float value `NaN` that pandas
  produces in a few places is modelled explicitly by `PandasVal.nan`;
* a pandas `DataFrame` indexed by date with a `Price` column is a `List (Int × ℚ)`
  in index order;
* Python exceptions are `Except`/`Option` values; a `try ... except` block is a
  `match` on the body's `Except` result.
-/

set_option maxHeartbeats 1000000

namespace EventChange

/-- Model of `self.price_data`: ordered (timestamp, price) pairs. -/
abbrev PriceSeries := List (Int × ℚ)

/-- Model of `self.price_data['Price'].mean()` (and `np.mean(data)`), as computed in
`EventChangeAnalyzer.__init__` for `self.mean_price`. For the empty series the
source produces float `NaN`; here `0/0 = 0`, which no claim depends on. -/
def meanPrice (data : PriceSeries) : ℚ :=
  (data.map Prod.snd).sum / (data.length : ℚ)

/-- Model of `self.price_data.loc[d, 'Price']` as a total lookup: `some` price when the
exact date is present, `none` for the `KeyError` case. -/
def lookupPrice (data : PriceSeries) (d : Int) : Option ℚ :=
  (data.find? (fun p => decide (p.1 = d))).map Prod.snd

/-- A pandas float cell: either a number or `NaN`. -/
inductive PandasVal where
  | nan : PandasVal
  | val : ℚ → PandasVal
deriving DecidableEq

/- ----------------------------------------------------------------
   CUSUM (`EventChangeAnalyzer.calculate_cusum`)
---------------------------------------------------------------- -/

/-- Model of `Series.cumsum()` with a running accumulator. -/
def cumsumAux (acc : ℚ) : List ℚ → List ℚ
  | [] => []
  | x :: xs => (acc + x) :: cumsumAux (acc + x) xs

/-- Model of `Series.cumsum()`. -/
def cumsum (xs : List ℚ) : List ℚ := cumsumAux 0 xs

/-- Observable behaviour of `calculate_cusum`: the series handed to the plotting
sink, and the Python return value of the method. -/
structure CusumOutcome where
  plotted : List ℚ
  returned : Option (List ℚ)
deriving DecidableEq

/-- Model of `EventChangeAnalyzer.calculate_cusum` (lines 28-43): computes
`(self.price_data['Price'] - self.mean_price).cumsum()`, plots it, logs, and
falls off the end of the function — i.e. it returns Python `None`, never the
computed sequence. `mean` is the analyzer's `self.mean_price` field. -/
def calculate_cusum (data : PriceSeries) (mean : ℚ) : CusumOutcome :=
  ⟨cumsum ((data.map Prod.snd).map (fun p => p - mean)), none⟩

/- ----------------------------------------------------------------
   Binary segmentation (`EventChangeAnalyzer.detect_change_point`)
---------------------------------------------------------------- -/

/-- Index of a `min` scan over rational scores: first element attaining the
minimum of `f` over the candidate list. -/
def argminQ (f : Nat → ℚ) : List Nat → Option Nat
  | [] => none
  | x :: xs =>
    match argminQ f xs with
    | none => some x
    | some y => if f x ≤ f y then some x else some y

/-- First pair attaining the maximal score in a list of (score, payload) pairs. -/
def argmaxPair : List (ℚ × Nat) → Option (ℚ × Nat)
  | [] => none
  | x :: xs =>
    match argmaxPair xs with
    | none => some x
    | some y => if y.1 ≤ x.1 then some x else some y

/-- Modelled from the spec (§4.2): the split point inside the segment `[s, e)`
that minimises the summed cost of the two resulting sub-segments — the
candidate split points are `s+1, …, e-1`; `none` when the segment is too short
to split. The repository's segmentation is `ruptures.Binseg(model="rbf")`, an
external library not under `src/`, so the cost function over segments is kept
as a parameter `cost` (the spec's RBF kernel cost is one instance; it involves
`exp` and is transcendental). -/
def bestSplit (cost : Nat → Nat → ℚ) (s e : Nat) : Option Nat :=
  argminQ (fun t => cost s t + cost t e) (List.range' (s + 1) (e - s - 1))

/-- Modelled from the spec (§4.2): the reduction in total cost obtained by
splitting `[s, e)` at `t`. -/
def splitGain (cost : Nat → Nat → ℚ) (s e t : Nat) : ℚ :=
  cost s e - (cost s t + cost t e)

/-- Modelled from the spec (§4.2, §9): over the worklist of current segments,
the best split of each splittable segment together with its gain. -/
def splitCandidates (cost : Nat → Nat → ℚ) (segs : List (Nat × Nat)) : List (ℚ × Nat) :=
  segs.filterMap (fun p =>
    (bestSplit cost p.1 p.2).map (fun t => (splitGain cost p.1 p.2 t, t)))

/-- Modelled from the spec (§4.2): the single split point, across all current
segments, that most reduces the total cost. -/
def pickSplit (cost : Nat → Nat → ℚ) (segs : List (Nat × Nat)) : Option Nat :=
  (argmaxPair (splitCandidates cost segs)).map Prod.snd

/-- Replace the (unique) segment `[s, e)` with `s < t < e` by the two
sub-segments `[s, t)`, `[t, e)`. -/
def applySplit (t : Nat) : List (Nat × Nat) → List (Nat × Nat)
  | [] => []
  | p :: rest =>
    if p.1 < t ∧ t < p.2 then (p.1, t) :: (t, p.2) :: rest
    else p :: applySplit t rest

/-- Modelled from the spec (§4.2, §9): binary segmentation as an explicit
worklist — place `k` splits, each time choosing the globally best split point. -/
def binsegLoop (cost : Nat → Nat → ℚ) : Nat → List (Nat × Nat) → List (Nat × Nat)
  | 0, segs => segs
  | k + 1, segs =>
    match pickSplit cost segs with
    | none => segs
    | some t => binsegLoop cost k (applySplit t segs)

/-- Modelled from the spec (§4.2): `ruptures.Binseg.fit(prices).predict(n_bkps=k)`
on a series of length `n` — the ordered right endpoints of the final segments:
`k` interior breakpoints plus the terminal sentinel `n`. -/
def binseg (cost : Nat → Nat → ℚ) (n k : Nat) : List Nat :=
  (binsegLoop cost k [(0, n)]).map Prod.snd

/-- The configuration-error taxonomy of spec §7 for the segmentation engine
(`ruptures` raises `BadSegmentationParameters`). -/
inductive SegError where
  | configurationError : SegError
deriving DecidableEq

/-- Modelled from the spec (§4.2, §6): `segment(series, k)` — a configuration
error when `k ≥ length(series)`, otherwise the binary-segmentation breakpoints. -/
def segment (cost : Nat → Nat → ℚ) (prices : List ℚ) (k : Nat) :
    Except SegError (List Nat) :=
  if prices.length ≤ k then .error .configurationError
  else .ok (binseg cost prices.length k)

/-- Observable behaviour of `detect_change_point`: the Python return value
(the method has no `return` statement, so always `None`) and whether the
`except` branch logged an error. Printing and plotting are presentation-only
side effects and are not modelled. -/
structure DetectOutcome where
  returned : Option (List Nat)
  loggedError : Bool
deriving DecidableEq

/-- The body of the `try:` block of `detect_change_point` (lines 47-68): the
segmentation itself, which can signal a configuration error. -/
def detectBody (cost : Nat → Nat → ℚ) (data : PriceSeries) (k : Nat) :
    Except SegError (List Nat) :=
  segment cost (data.map Prod.snd) k

/-- Model of `EventChangeAnalyzer.detect_change_point` (lines 45-70): runs the body and
catches every exception (`except Exception`), logging it via
`self.logger.error`; in both branches the method returns `None` to its caller. -/
def detect_change_point (cost : Nat → Nat → ℚ) (data : PriceSeries) (k : Nat) :
    DetectOutcome :=
  match detectBody cost data k with
  | .ok _ => ⟨none, false⟩
  | .error _ => ⟨none, true⟩

/- ----------------------------------------------------------------
   Bayesian change point (`bayesian_change_point_detection`)
---------------------------------------------------------------- -/

/-- Line 87: `pm.math.switch(cp >= np.arange(len(data)), mu1, mu2)` — the
likelihood mean of observation `i` under change point `cp`. -/
def muSwitch (cp i : Nat) (mu1 mu2 : ℚ) : ℚ :=
  if cp ≥ i then mu1 else mu2

/-- Line 88: `pm.math.switch(cp >= np.arange(len(data)), sigma1, sigma2)` — the
likelihood standard deviation of observation `i` under change point `cp`. -/
def sigmaSwitch (cp i : Nat) (sigma1 sigma2 : ℚ) : ℚ :=
  if cp ≥ i then sigma1 else sigma2

/-- Line 79: `pm.DiscreteUniform('change_point', lower=0, upper=len(data) - 1)`
— the (lower, upper) support bounds of the change-point prior. -/
def changePointPrior (n : Nat) : Nat × Nat :=
  (0, n - 1)

/-- Ordered insertion into a sorted list (used to implement the sort inside
`np.median`). -/
def insertSorted (x : Nat) : List Nat → List Nat
  | [] => [x]
  | y :: ys => if x ≤ y then x :: y :: ys else y :: insertSorted x ys

/-- Insertion sort of the draws (the sorting step of `np.median`). -/
def sortNats : List Nat → List Nat
  | [] => []
  | x :: xs => insertSorted x (sortNats xs)

/-- Model of `np.median` of the retained change-point draws: middle element of the
sorted draws, or the average of the two middle elements for an even count. -/
def npMedian (xs : List Nat) : ℚ :=
  let s := sortNats xs
  if s.length % 2 = 1 then ((s.getD (s.length / 2) 0 : Nat) : ℚ)
  else (((s.getD (s.length / 2 - 1) 0 : Nat) : ℚ) + ((s.getD (s.length / 2) 0 : Nat) : ℚ)) / 2

/-- Python `int()` on a real value: truncation toward zero. -/
def intTrunc (q : ℚ) : Int :=
  if 0 ≤ q then ⌊q⌋ else -⌊-q⌋

/-- Model of `self.price_data.index[c]`: the timestamp at positional index `c`, `none`
for the out-of-bounds `IndexError` case. -/
def dateAtIndex (data : PriceSeries) (c : Nat) : Option Int :=
  (data[c]?).map Prod.fst

/-- The outcome of `pm.sample(...)` on line 92, abstracted: either the flattened
retained draws of the `change_point` variable, or a sampler failure
(non-convergence / numerical error raising an exception). -/
inductive SamplerResult where
  | ok : List Nat → SamplerResult
  | fail : SamplerResult
deriving DecidableEq

/-- Observable behaviour of `bayesian_change_point_detection`: the Python
return value (the estimated change-point date, or `None` when the `except`
branch ran) and whether an error was logged. -/
structure BayesOutcome where
  returned : Option Int
  loggedError : Bool
deriving DecidableEq

/-- The body of the `try:` block of `bayesian_change_point_detection`
(lines 74-101): build the model (fails on an empty series: the prior's upper
bound would be `-1`), sample (the abstracted `sampler` argument), take
`int(np.median(draws))` (a `ValueError` on zero retained draws, since
`np.median([])` is `NaN`), and index the series' dates with the estimate
(an `IndexError` when out of bounds). -/
def bayesianBody (data : PriceSeries) (sampler : SamplerResult) : Except String Int :=
  if data.isEmpty then .error ("model construction failed")
  else
    match sampler with
    | .fail => .error ("sampling failed")
    | .ok draws =>
      if draws.isEmpty then .error ("int of NaN median")
      else
        match dateAtIndex data ((intTrunc (npMedian draws)).toNat) with
        | some d => .ok d
        | none => .error ("IndexError")

/-- Model of `EventChangeAnalyzer.bayesian_change_point_detection` (lines 72-104): runs
the body and catches every exception (`except Exception`), logging it via
`self.logger.error`; in the failure branch the method returns `None`. -/
def bayesian_change_point_detection (data : PriceSeries) (sampler : SamplerResult) :
    BayesOutcome :=
  match bayesianBody data sampler with
  | .ok d => ⟨some d, false⟩
  | .error _ => ⟨none, true⟩

/- ----------------------------------------------------------------
   Event windows and event impact
   (`_get_prices_around_event`, `_calculate_percentage_change`,
    `analyze_price_changes_around_events`, `_perform_statistical_analysis`)
---------------------------------------------------------------- -/

/-- Model of `EventChangeAnalyzer._get_prices_around_event` (lines 106-109): the rows of
`price_data` with `event_date - days_before ≤ index ≤ event_date + days_after`. -/
def get_prices_around_event (data : PriceSeries) (eventDate daysBefore daysAfter : Int) :
    PriceSeries :=
  data.filter (fun p =>
    decide (eventDate - daysBefore ≤ p.1) && decide (p.1 ≤ eventDate + daysAfter))

/-- Model of `EventChangeAnalyzer._calculate_percentage_change` (lines 111-117): exact
lookups at `event_date ± days`; `((after - before) / before) * 100` when both
dates are present, `none` for the caught `KeyError` when either is absent. -/
def calculate_percentage_change (data : PriceSeries) (eventDate days : Int) : Option ℚ :=
  match lookupPrice data (eventDate - days), lookupPrice data (eventDate + days) with
  | some b, some a => some ((a - b) / b * 100)
  | _, _ => none

/-- Running product of `1 + (x - prev) / prev` over the remaining prices, given
the previous price: the tail of `Series.pct_change().add(1).cumprod()`. -/
def prodOneReturns : ℚ → List ℚ → ℚ
  | _, [] => 1
  | prev, x :: xs => (1 + (x - prev) / prev) * prodOneReturns x xs

/-- Model of `window.pct_change().add(1).cumprod().iloc[-1] - 1` on a price window:
an `IndexError` (`.error`) on an empty window; `NaN` on a single-element window
(the lone `pct_change` entry is `NaN`); otherwise the compounded product of
`1 + daily return` minus 1 (pandas `cumprod` skips the leading `NaN`). -/
def cumulativeReturnCell : List ℚ → Except Unit PandasVal
  | [] => .error ()
  | [_] => .ok .nan
  | x :: y :: xs => .ok (.val (prodOneReturns x (y :: xs) - 1))

/-- One row of the event-impact table built on lines 188-196. -/
structure EventRecord where
  event : String
  date : Int
  change1M : Option ℚ
  change3M : Option ℚ
  change6M : Option ℚ
  cumulativeReturnBefore : PandasVal
  cumulativeReturnAfter : PandasVal
deriving DecidableEq

/-- Line 185: `prices.loc[:event_date, 'Price']` on the ±180-day window
`prices` of line 179. -/
def preEventWindow (data : PriceSeries) (e : Int) : List ℚ :=
  ((get_prices_around_event data e 180 180).filter (fun p => decide (p.1 ≤ e))).map Prod.snd

/-- Line 186: `prices.loc[event_date:, 'Price']` on the ±180-day window
`prices` of line 179. -/
def postEventWindow (data : PriceSeries) (e : Int) : List ℚ :=
  ((get_prices_around_event data e 180 180).filter (fun p => decide (e ≤ p.1))).map Prod.snd

/-- The per-event `try:` body of `analyze_price_changes_around_events`
(lines 177-196): the ±180-day window, the three percentage changes, and the
two cumulative returns (whose `.iloc[-1]` raises — caught by the per-event
`except`, yielding `none` and a logged warning — exactly when the corresponding
sub-window is empty). -/
def processEvent (data : PriceSeries) (ev : String × Int) : Option EventRecord :=
  match cumulativeReturnCell (preEventWindow data ev.2),
      cumulativeReturnCell (postEventWindow data ev.2) with
  | .ok cb, .ok ca =>
    some ⟨ev.1, ev.2,
      calculate_percentage_change data ev.2 30,
      calculate_percentage_change data ev.2 90,
      calculate_percentage_change data ev.2 180,
      cb, ca⟩
  | _, _ => none

/-- Result cell of `scipy.stats.ttest_ind(before, after, nan_policy='omit')`
with the default `equal_var=True` (Student's pooled test). The real-valued
statistic is `(m1 - m2) / sqrt(sp2 * (1/n1 + 1/n2))` and the p-value is the
two-sided Student tail at `n1 + n2 - 2` degrees of freedom; both are
transcendental in the inputs, so the cell carries the exact rational data
`(m1, m2, sp2, n1, n2)` that determines them. When either sample has fewer
than two observations the float computation degenerates (`np.mean([])` is
`NaN`; a single-element sample has `NaN` variance at `ddof=1`, and
`0 * NaN = NaN` poisons the pooled variance), so scipy returns `NaN` rather
than raising — modelled by `nan`. -/
inductive TTestVal where
  | nan : TTestVal
  | student : ℚ → ℚ → ℚ → Nat → Nat → TTestVal
deriving DecidableEq

/-- Sample mean. -/
def sampleMean (xs : List ℚ) : ℚ := xs.sum / (xs.length : ℚ)

/-- Sample variance with `ddof=1`. -/
def sampleVar (xs : List ℚ) : ℚ :=
  ((xs.map (fun x => (x - sampleMean xs) ^ 2)).sum) / ((xs.length : ℚ) - 1)

/-- Model of `scipy.stats.ttest_ind(xs, ys, nan_policy='omit')` (line 163); the rational
series carry no `NaN`s, so the omit policy is the identity. -/
def ttest_ind (xs ys : List ℚ) : TTestVal :=
  if xs.length ≤ 1 ∨ ys.length ≤ 1 then .nan
  else
    .student (sampleMean xs) (sampleMean ys)
      ((((xs.length : ℚ) - 1) * sampleVar xs + ((ys.length : ℚ) - 1) * sampleVar ys) /
        ((xs.length : ℚ) + (ys.length : ℚ) - 2))
      xs.length ys.length

/-- Line 161: `self._get_prices_around_event(event_date, days_before=180)`
(so `days_after` keeps its default 30) followed by `.loc[:event_date, 'Price']`. -/
def preWindow (data : PriceSeries) (e : Int) : List ℚ :=
  ((get_prices_around_event data e 180 30).filter (fun p => decide (p.1 ≤ e))).map Prod.snd

/-- Line 162: `self._get_prices_around_event(event_date, days_after=180)`
(so `days_before` keeps its default 30) followed by `.loc[event_date:, 'Price']`. -/
def postWindow (data : PriceSeries) (e : Int) : List ℚ :=
  ((get_prices_around_event data e 30 180).filter (fun p => decide (e ≤ p.1))).map Prod.snd

/-- Model of `EventChangeAnalyzer._perform_statistical_analysis` (lines 156-170). On a
series with a monotonic unique date index, label slicing `.loc[:event_date]`
never raises `KeyError`, and `ttest_ind` returns `NaN` rather than raising on
degenerate samples, so the `except KeyError` skip branch is unreachable and
every event receives an entry. -/
def perform_statistical_analysis (data : PriceSeries) (events : List (String × Int)) :
    List (String × TTestVal) :=
  events.map (fun ev => (ev.1, ttest_ind (preWindow data ev.2) (postWindow data ev.2)))

/-- Model of `EventChangeAnalyzer.analyze_price_changes_around_events` (lines 172-206):
the per-event loop appends a row for each event whose body succeeds (a failing
event is caught by the per-event `except`, a warning is logged, and the loop
continues with the next event), and the statistical table is computed over the
same event mapping. The two plotting calls are presentation-only and are not
modelled. -/
def analyze_price_changes_around_events (data : PriceSeries) (events : List (String × Int)) :
    List EventRecord × List (String × TTestVal) :=
  (events.filterMap (processEvent data), perform_statistical_analysis data events)

/- ----------------------------------------------------------------
   The analyzer object (`EventChangeAnalyzer.__init__`) and its methods
   as state transformers, for the frame property
---------------------------------------------------------------- -/

/-- The analyzer's state: `self.price_data` and `self.mean_price`
(`__init__`, lines 23-26). -/
structure EventChangeAnalyzer where
  price_data : PriceSeries
  mean_price : ℚ

/-- Model of `EventChangeAnalyzer.__init__`. -/
def EventChangeAnalyzer.init (data : PriceSeries) : EventChangeAnalyzer :=
  ⟨data, meanPrice data⟩

/-- Method `calculate_cusum` as a state transformer: result and post-state. -/
def EventChangeAnalyzer.calculateCusumM (a : EventChangeAnalyzer) :
    CusumOutcome × EventChangeAnalyzer :=
  (calculate_cusum a.price_data a.mean_price, a)

/-- Method `detect_change_point` as a state transformer. -/
def EventChangeAnalyzer.detectChangePointM (a : EventChangeAnalyzer)
    (cost : Nat → Nat → ℚ) (k : Nat) : DetectOutcome × EventChangeAnalyzer :=
  (detect_change_point cost a.price_data k, a)

/-- Method `bayesian_change_point_detection` as a state transformer. -/
def EventChangeAnalyzer.bayesianChangePointM (a : EventChangeAnalyzer)
    (sampler : SamplerResult) : BayesOutcome × EventChangeAnalyzer :=
  (bayesian_change_point_detection a.price_data sampler, a)

/-- Method `_get_prices_around_event` as a state transformer. -/
def EventChangeAnalyzer.getPricesAroundEventM (a : EventChangeAnalyzer)
    (eventDate daysBefore daysAfter : Int) : PriceSeries × EventChangeAnalyzer :=
  (get_prices_around_event a.price_data eventDate daysBefore daysAfter, a)

/-- Method `analyze_price_changes_around_events` as a state transformer. -/
def EventChangeAnalyzer.analyzeEventsM (a : EventChangeAnalyzer)
    (events : List (String × Int)) :
    (List EventRecord × List (String × TTestVal)) × EventChangeAnalyzer :=
  (analyze_price_changes_around_events a.price_data events, a)

/- ----------------------------------------------------------------
   Segment-chain invariant for the segmentation proofs
---------------------------------------------------------------- -/

/-- Invariant `IsSegs a segs b`: `segs` is a gap-free chain of nonempty half-open
segments partitioning `[a, b)`. -/
def IsSegs : Nat → List (Nat × Nat) → Nat → Prop
  | a, [], b => a = b
  | a, p :: rest, b => a = p.1 ∧ p.1 < p.2 ∧ IsSegs p.2 rest b

/- ----------------------------------------------------------------
   Helper lemmas: binary segmentation
---------------------------------------------------------------- -/

theorem argminQ_mem {f : Nat → ℚ} {xs : List Nat} {y : Nat}
    (h : argminQ f xs = some y) : y ∈ xs := by
  induction xs with
  | nil => simp [argminQ] at h
  | cons x xs ih =>
    simp only [argminQ] at h
    cases hx : argminQ f xs with
    | none => rw [hx] at h; simp_all
    | some z =>
      rw [hx] at h
      dsimp only at h
      by_cases hle : f x ≤ f z
      · rw [if_pos hle] at h; cases h; exact List.mem_cons_self _ _
      · rw [if_neg hle] at h; cases h; exact List.mem_cons_of_mem _ (ih hx)

theorem argminQ_isSome {f : Nat → ℚ} {xs : List Nat} (h : xs ≠ []) :
    (argminQ f xs).isSome := by
  cases xs with
  | nil => simp at h
  | cons x xs =>
    simp only [argminQ]
    cases argminQ f xs with
    | none => simp
    | some z => by_cases hle : f x ≤ f z <;> simp [hle]

theorem argmaxPair_mem {xs : List (ℚ × Nat)} {y : ℚ × Nat}
    (h : argmaxPair xs = some y) : y ∈ xs := by
  induction xs with
  | nil => simp [argmaxPair] at h
  | cons x xs ih =>
    simp only [argmaxPair] at h
    cases hx : argmaxPair xs with
    | none => rw [hx] at h; simp_all
    | some z =>
      rw [hx] at h
      dsimp only at h
      by_cases hle : z.1 ≤ x.1
      · rw [if_pos hle] at h; cases h; exact List.mem_cons_self _ _
      · rw [if_neg hle] at h; cases h; exact List.mem_cons_of_mem _ (ih hx)

theorem argmaxPair_isSome {xs : List (ℚ × Nat)} (h : xs ≠ []) :
    (argmaxPair xs).isSome := by
  cases xs with
  | nil => simp at h
  | cons x xs =>
    simp only [argmaxPair]
    cases argmaxPair xs with
    | none => simp
    | some z => by_cases hle : z.1 ≤ x.1 <;> simp [hle]

theorem bestSplit_lt {cost : Nat → Nat → ℚ} {s e t : Nat}
    (h : bestSplit cost s e = some t) : s < t ∧ t < e := by
  have hm := argminQ_mem h
  rw [List.mem_range'_1] at hm
  omega

theorem bestSplit_isSome {cost : Nat → Nat → ℚ} {s e : Nat} (h : s + 2 ≤ e) :
    (bestSplit cost s e).isSome := by
  apply argminQ_isSome
  apply List.length_pos.mp
  rw [List.length_range']
  omega

theorem pickSplit_mem {cost : Nat → Nat → ℚ} {segs : List (Nat × Nat)} {t : Nat}
    (h : pickSplit cost segs = some t) : ∃ p ∈ segs, p.1 < t ∧ t < p.2 := by
  unfold pickSplit at h
  cases hx : argmaxPair (splitCandidates cost segs) with
  | none => rw [hx] at h; simp at h
  | some gt =>
    rw [hx] at h
    simp only [Option.map_some'] at h
    cases h
    have hmem := argmaxPair_mem hx
    unfold splitCandidates at hmem
    rw [List.mem_filterMap] at hmem
    obtain ⟨p, hp, hmap⟩ := hmem
    cases hb : bestSplit cost p.1 p.2 with
    | none => rw [hb] at hmap; simp at hmap
    | some u =>
      rw [hb] at hmap
      simp only [Option.map_some', Option.some.injEq] at hmap
      have hlt := bestSplit_lt hb
      refine ⟨p, hp, ?_, ?_⟩
      · rw [← hmap]; exact hlt.1
      · rw [← hmap]; exact hlt.2

theorem pickSplit_isSome {cost : Nat → Nat → ℚ} {segs : List (Nat × Nat)}
    (h : ∃ p ∈ segs, p.1 + 2 ≤ p.2) : (pickSplit cost segs).isSome := by
  obtain ⟨p, hp, hlen⟩ := h
  obtain ⟨u, hu⟩ := Option.isSome_iff_exists.mp (@bestSplit_isSome cost _ _ hlen)
  have hmem : (splitGain cost p.1 p.2 u, u) ∈ splitCandidates cost segs := by
    rw [splitCandidates, List.mem_filterMap]
    exact ⟨p, hp, by rw [hu]; rfl⟩
  unfold pickSplit
  rw [Option.isSome_map']
  exact argmaxPair_isSome (List.ne_nil_of_mem hmem)

theorem applySplit_length {t : Nat} {segs : List (Nat × Nat)}
    (h : ∃ p ∈ segs, p.1 < t ∧ t < p.2) :
    (applySplit t segs).length = segs.length + 1 := by
  induction segs with
  | nil => simp at h
  | cons q rest ih =>
    obtain ⟨p, hp, h1, h2⟩ := h
    by_cases hq : q.1 < t ∧ t < q.2
    · simp [applySplit, hq]
    · rw [applySplit, if_neg hq]
      have hrest : p ∈ rest := by
        rcases List.mem_cons.mp hp with hpq | hm
        · exact absurd ⟨by rw [hpq] at h1; exact h1, by rw [hpq] at h2; exact h2⟩ hq
        · exact hm
      simp only [List.length_cons]
      rw [ih ⟨p, hrest, h1, h2⟩]

theorem applySplit_isSegs {t : Nat} {segs : List (Nat × Nat)} {a b : Nat}
    (h : IsSegs a segs b) : IsSegs a (applySplit t segs) b := by
  induction segs generalizing a with
  | nil => simpa [applySplit] using h
  | cons q rest ih =>
    obtain ⟨ha, hlt, hrest⟩ := h
    by_cases hq : q.1 < t ∧ t < q.2
    · rw [applySplit, if_pos hq]
      exact ⟨ha, hq.1, rfl, hq.2, hrest⟩
    · rw [applySplit, if_neg hq]
      exact ⟨ha, hlt, ih hrest⟩

theorem isSegs_length_bound {segs : List (Nat × Nat)} {a b : Nat}
    (h : IsSegs a segs b) (hshort : ∀ p ∈ segs, p.2 ≤ p.1 + 1) :
    b ≤ a + segs.length := by
  induction segs generalizing a with
  | nil => rw [h]; simp
  | cons q rest ih =>
    obtain ⟨ha, hlt, hrest⟩ := h
    have hq := hshort q (List.mem_cons_self _ _)
    have := ih hrest (fun p hp => hshort p (List.mem_cons_of_mem _ hp))
    simp only [List.length_cons]
    omega

theorem isSegs_exists_split {segs : List (Nat × Nat)} {n : Nat}
    (h : IsSegs 0 segs n) (hlen : segs.length < n) :
    ∃ p ∈ segs, p.1 + 2 ≤ p.2 := by
  by_contra hc
  push_neg at hc
  have := isSegs_length_bound h (fun p hp => by have := hc p hp; omega)
  omega

theorem binsegLoop_spec {cost : Nat → Nat → ℚ} {n : Nat} :
    ∀ (k : Nat) (segs : List (Nat × Nat)), IsSegs 0 segs n → segs.length + k ≤ n →
      IsSegs 0 (binsegLoop cost k segs) n ∧
        (binsegLoop cost k segs).length = segs.length + k := by
  intro k
  induction k with
  | zero =>
    intro segs h1 _
    exact ⟨h1, by simp [binsegLoop]⟩
  | succ k ih =>
    intro segs h1 h2
    have hsplit : ∃ p ∈ segs, p.1 + 2 ≤ p.2 := isSegs_exists_split h1 (by omega)
    obtain ⟨t, ht⟩ := Option.isSome_iff_exists.mp (@pickSplit_isSome cost _ hsplit)
    have hmem := pickSplit_mem ht
    have hlen := applySplit_length hmem
    have hinv := applySplit_isSegs (t := t) h1
    have hrec := ih (applySplit t segs) hinv (by omega)
    simp only [binsegLoop]
    rw [ht]
    exact ⟨hrec.1, by rw [hrec.2, hlen]; omega⟩

theorem isSegs_map_snd_chain {segs : List (Nat × Nat)} {a b : Nat}
    (h : IsSegs a segs b) : List.Chain' (· < ·) (segs.map Prod.snd) := by
  induction segs generalizing a with
  | nil => simp
  | cons q rest ih =>
    obtain ⟨ha, hlt, hrest⟩ := h
    cases rest with
    | nil => simp
    | cons r rest' =>
      obtain ⟨ha2, hlt2, hrest2⟩ := hrest
      simp only [List.map_cons]
      rw [List.chain'_cons]
      exact ⟨by omega, by simpa using ih ⟨rfl, hlt2, hrest2⟩⟩

theorem isSegs_map_snd_getLast {segs : List (Nat × Nat)} {a b : Nat}
    (h : IsSegs a segs b) (hne : segs ≠ []) :
    (segs.map Prod.snd).getLast? = some b := by
  induction segs generalizing a with
  | nil => simp at hne
  | cons q rest ih =>
    obtain ⟨ha, hlt, hrest⟩ := h
    cases rest with
    | nil => simp_all [IsSegs]
    | cons r rest' =>
      simp only [List.map_cons]
      rw [List.getLast?_cons_cons]
      simpa using ih hrest (by simp)

/- ----------------------------------------------------------------
   Helper lemmas: CUSUM
---------------------------------------------------------------- -/

theorem cumsumAux_length (acc : ℚ) (xs : List ℚ) :
    (cumsumAux acc xs).length = xs.length := by
  induction xs generalizing acc with
  | nil => rfl
  | cons x xs ih => simp [cumsumAux, ih]

theorem cumsumAux_getD (acc : ℚ) (xs : List ℚ) (i : Nat) (h : i < xs.length) :
    (cumsumAux acc xs).getD i 0 = acc + (xs.take (i + 1)).sum := by
  induction xs generalizing acc i with
  | nil => simp at h
  | cons x xs ih =>
    cases i with
    | zero => simp [cumsumAux]
    | succ i =>
      simp only [cumsumAux, List.getD_cons_succ]
      rw [ih (acc + x) i (by simpa using h)]
      rw [List.take_succ_cons, List.sum_cons]
      ring

theorem cumsum_length (xs : List ℚ) : (cumsum xs).length = xs.length :=
  cumsumAux_length 0 xs

theorem cumsum_getD (xs : List ℚ) (i : Nat) (h : i < xs.length) :
    (cumsum xs).getD i 0 = (xs.take (i + 1)).sum := by
  rw [cumsum, cumsumAux_getD 0 xs i h, zero_add]

/- ----------------------------------------------------------------
   Helper lemmas: np.median / int() bounds
---------------------------------------------------------------- -/

theorem length_insertSorted (x : Nat) (xs : List Nat) :
    (insertSorted x xs).length = xs.length + 1 := by
  induction xs with
  | nil => rfl
  | cons y ys ih =>
    rw [insertSorted]
    by_cases h : x ≤ y
    · rw [if_pos h]
      rfl
    · rw [if_neg h]
      simp [ih]

theorem mem_insertSorted {y x : Nat} {xs : List Nat}
    (h : y ∈ insertSorted x xs) : y = x ∨ y ∈ xs := by
  induction xs with
  | nil => simpa [insertSorted] using h
  | cons z zs ih =>
    rw [insertSorted] at h
    by_cases hle : x ≤ z
    · rw [if_pos hle] at h
      simpa using h
    · rw [if_neg hle] at h
      rcases List.mem_cons.mp h with h1 | h2
      · right; simp [h1]
      · rcases ih h2 with h3 | h4
        · left; exact h3
        · right; simp [h4]

theorem length_sortNats (xs : List Nat) : (sortNats xs).length = xs.length := by
  induction xs with
  | nil => rfl
  | cons x xs ih =>
    rw [sortNats, length_insertSorted, ih]
    rfl

theorem mem_sortNats {y : Nat} {xs : List Nat} (h : y ∈ sortNats xs) : y ∈ xs := by
  induction xs with
  | nil => simp [sortNats] at h
  | cons x xs ih =>
    rw [sortNats] at h
    rcases mem_insertSorted h with h1 | h2
    · simp [h1]
    · simp [ih h2]

theorem npMedian_nonneg (xs : List Nat) : 0 ≤ npMedian xs := by
  rw [npMedian]
  by_cases h : (sortNats xs).length % 2 = 1
  · rw [if_pos h]
    positivity
  · rw [if_neg h]
    positivity

theorem npMedian_le {xs : List Nat} {B : Nat} (hne : xs ≠ [])
    (h : ∀ c ∈ xs, c ≤ B) : npMedian xs ≤ (B : ℚ) := by
  rw [npMedian]
  have hmem : ∀ i, i < (sortNats xs).length → (sortNats xs).getD i 0 ≤ B := by
    intro i hi
    rw [List.getD_eq_getElem _ _ hi]
    exact h _ (mem_sortNats (List.getElem_mem hi))
  have hpos : 0 < (sortNats xs).length := by
    rw [length_sortNats]
    exact List.length_pos.mpr hne
  by_cases hodd : (sortNats xs).length % 2 = 1
  · rw [if_pos hodd]
    exact_mod_cast hmem _ (by omega)
  · rw [if_neg hodd]
    have h1 := hmem ((sortNats xs).length / 2 - 1) (by omega)
    have h2 := hmem ((sortNats xs).length / 2) (by omega)
    have hs : (((sortNats xs).getD ((sortNats xs).length / 2 - 1) 0 : Nat) : ℚ) +
        (((sortNats xs).getD ((sortNats xs).length / 2) 0 : Nat) : ℚ) ≤
        (B : ℚ) + (B : ℚ) := by
      exact_mod_cast add_le_add h1 h2
    linarith

theorem intTrunc_npMedian_le {xs : List Nat} {B : Nat} (hne : xs ≠ [])
    (h : ∀ c ∈ xs, c ≤ B) : (intTrunc (npMedian xs)).toNat ≤ B := by
  rw [intTrunc, if_pos (npMedian_nonneg xs), Int.toNat_le]
  calc ⌊npMedian xs⌋ ≤ ⌊(B : ℚ)⌋ := Int.floor_mono (npMedian_le hne h)
    _ = B := Int.floor_natCast B

/- ----------------------------------------------------------------
   Claim theorems
---------------------------------------------------------------- -/

/-- Claim C1: for every non-empty price series, the Bayesian change-point
operation models a single change-point index (prior support `[0, n-1]`) with
observations at index `i ≤ cp` drawn from `Normal(mu1, sigma1)` and at `i > cp`
from `Normal(mu2, sigma2)` (the `switch` conditions of lines 87-88), and on a
successful sampling run whose retained draws are in range it returns the
posterior median of the draws (`int(np.median(...))`, which truncates a
half-integral median of an even draw count) converted to the series' calendar
date at that index. -/
theorem claim_C1 (data : PriceSeries) (mu1 mu2 sigma1 sigma2 : ℚ) (cp i : Nat)
    (draws : List Nat) (hdata : data ≠ []) (hdraws : draws ≠ [])
    (hbound : ∀ c ∈ draws, c < data.length) :
    changePointPrior data.length = (0, data.length - 1) ∧
    (i ≤ cp → muSwitch cp i mu1 mu2 = mu1 ∧ sigmaSwitch cp i sigma1 sigma2 = sigma1) ∧
    (cp < i → muSwitch cp i mu1 mu2 = mu2 ∧ sigmaSwitch cp i sigma1 sigma2 = sigma2) ∧
    bayesian_change_point_detection data (.ok draws) =
      ⟨dateAtIndex data ((intTrunc (npMedian draws)).toNat), false⟩ ∧
    (dateAtIndex data ((intTrunc (npMedian draws)).toNat)).isSome = true := by
  have hpos : 0 < data.length := List.length_pos.mpr hdata
  have hle : (intTrunc (npMedian draws)).toNat ≤ data.length - 1 :=
    intTrunc_npMedian_le hdraws (fun c hc => by have := hbound c hc; omega)
  have hlt : (intTrunc (npMedian draws)).toNat < data.length := by omega
  have hsome : dateAtIndex data ((intTrunc (npMedian draws)).toNat) =
      some (data[(intTrunc (npMedian draws)).toNat]).1 := by
    rw [dateAtIndex, List.getElem?_eq_getElem hlt, Option.map_some']
  have hbody : bayesianBody data (.ok draws) =
      .ok (data[(intTrunc (npMedian draws)).toNat]).1 := by
    rw [bayesianBody, if_neg (by simp [List.isEmpty_iff, hdata])]
    rw [if_neg (by simp [List.isEmpty_iff, hdraws])]
    rw [hsome]
  refine ⟨rfl, ?_, ?_, ?_, ?_⟩
  · intro h
    constructor <;> simp [muSwitch, sigmaSwitch, h]
  · intro h
    have hn : ¬ (cp ≥ i) := by omega
    constructor <;> simp [muSwitch, sigmaSwitch, hn]
  · rw [bayesian_change_point_detection, hbody, hsome]
  · rw [hsome]
    rfl

/-- Witness for C1 at a concrete series and draw list: the sorted draws
`[1, 1, 2]` have median 1, and the returned date is the one at index 1. -/
theorem claim_C1_witness :
    ([((100 : Int), (5 : ℚ)), (200, 7), (300, 9)] : PriceSeries) ≠ [] ∧
    ([1, 1, 2] : List Nat) ≠ [] ∧
    (∀ c ∈ ([1, 1, 2] : List Nat),
      c < ([((100 : Int), (5 : ℚ)), (200, 7), (300, 9)] : PriceSeries).length) ∧
    bayesian_change_point_detection [((100 : Int), (5 : ℚ)), (200, 7), (300, 9)]
      (.ok [1, 1, 2]) =
      ⟨dateAtIndex [((100 : Int), (5 : ℚ)), (200, 7), (300, 9)]
        ((intTrunc (npMedian [1, 1, 2])).toNat), false⟩ ∧
    dateAtIndex [((100 : Int), (5 : ℚ)), (200, 7), (300, 9)]
      ((intTrunc (npMedian [1, 1, 2])).toNat) = some 200 := by
  refine ⟨by decide, by decide, by decide, ?_,
    by norm_num [npMedian, sortNats, insertSorted, intTrunc, dateAtIndex]⟩
  exact (claim_C1 [((100 : Int), (5 : ℚ)), (200, 7), (300, 9)] 0 0 0 0 0 0 [1, 1, 2]
    (by decide) (by decide) (by decide)).2.2.2.1

/-- Claim C2: for every series and every valid breakpoint count
`1 ≤ k < length(series)`, the segmentation operation returns exactly `k + 1`
boundary positions, strictly ordered, the final entry equal to the series
length (the terminal sentinel). Proved for the spec-modelled binary
segmentation (`segment`/`binseg`), for an arbitrary segment-cost function. -/
theorem claim_C2 (cost : Nat → Nat → ℚ) (prices : List ℚ) (k : Nat)
    (hk : 1 ≤ k) (hkn : k < prices.length) :
    ∃ bkps, segment cost prices k = .ok bkps ∧ bkps.length = k + 1 ∧
      List.Chain' (· < ·) bkps ∧ bkps.getLast? = some prices.length := by
  have hinit : IsSegs 0 [(0, prices.length)] prices.length := ⟨rfl, by omega, rfl⟩
  have hspec := @binsegLoop_spec cost prices.length k [(0, prices.length)]
    hinit (by simp only [List.length_cons, List.length_nil]; omega)
  refine ⟨binseg cost prices.length k, ?_, ?_, ?_, ?_⟩
  · rw [segment, if_neg (by omega)]
  · rw [binseg, List.length_map, hspec.2]
    simp only [List.length_cons, List.length_nil]
    omega
  · exact isSegs_map_snd_chain hspec.1
  · refine isSegs_map_snd_getLast hspec.1 ?_
    intro hnil
    rw [hnil] at hspec
    simp at hspec
    omega

/-- Witness for C2: segmenting a 3-point series with `k = 1` under the
constant cost yields the two ordered boundaries `[1, 3]`. -/
theorem claim_C2_witness :
    (1 ≤ 1 ∧ 1 < ([1, 2, 3] : List ℚ).length) ∧
    (∃ bkps, segment (fun _ _ => (0 : ℚ)) [1, 2, 3] 1 = .ok bkps ∧
      bkps.length = 1 + 1 ∧ List.Chain' (· < ·) bkps ∧
      bkps.getLast? = some ([1, 2, 3] : List ℚ).length) :=
  ⟨⟨by decide, by decide⟩,
    claim_C2 (fun _ _ => (0 : ℚ)) [1, 2, 3] 1 (by decide) (by decide)⟩

/-- Claim C3 counterexample: at the two-point series with `k = 5 ≥ 2`, the
segmentation body does signal a configuration error, but
`detect_change_point` catches it (`except Exception`, line 69), logs it, and
returns Python `None` normally — no `ConfigurationError` reaches the caller,
contradicting the claim that the operation raises it to the caller. -/
theorem claim_C3_counterexample :
    detectBody (fun _ _ => (0 : ℚ)) [((0 : Int), (10 : ℚ)), (1, 11)] 5 =
      .error .configurationError ∧
    detect_change_point (fun _ _ => (0 : ℚ)) [((0 : Int), (10 : ℚ)), (1, 11)] 5 =
      ⟨none, true⟩ := by
  exact ⟨rfl, rfl⟩

/-- Claim C3 as amended: for every series and every breakpoint count
`k ≥ length(series)`, the underlying segmentation signals a configuration
error, which `detect_change_point` catches and logs via the analyzer's logger,
returning `None` to its caller; the error is not propagated (and not silently
dropped: it is logged). -/
theorem claim_C3_amended (cost : Nat → Nat → ℚ) (data : PriceSeries) (k : Nat)
    (h : data.length ≤ k) :
    detectBody cost data k = .error .configurationError ∧
    detect_change_point cost data k = ⟨none, true⟩ := by
  have hb : detectBody cost data k = .error .configurationError := by
    rw [detectBody, segment, if_pos (by simpa using h)]
  exact ⟨hb, by rw [detect_change_point, hb]⟩

/-- Witness for the amended C3 at a concrete series and `k = 5`. -/
theorem claim_C3_witness :
    ([((0 : Int), (10 : ℚ)), (1, 11)] : PriceSeries).length ≤ 5 ∧
    (detectBody (fun _ _ => (1 : ℚ)) [((0 : Int), (10 : ℚ)), (1, 11)] 5 =
        .error .configurationError ∧
      detect_change_point (fun _ _ => (1 : ℚ)) [((0 : Int), (10 : ℚ)), (1, 11)] 5 =
        ⟨none, true⟩) :=
  ⟨by decide,
    claim_C3_amended (fun _ _ => (1 : ℚ)) [((0 : Int), (10 : ℚ)), (1, 11)] 5 (by decide)⟩

/-- Claim C8: for every input series, a sampler failure (exception during
sampling) and the zero-retained-draws degenerate case are both caught by the
`except` at the analysis boundary (line 103): the body signals an error, and
the operation returns the no-estimate outcome (`None`, error logged) to the
caller instead of propagating the sampler's internal exception. -/
theorem claim_C8 (data : PriceSeries) :
    (∃ msg, bayesianBody data .fail = .error msg) ∧
    bayesian_change_point_detection data .fail = ⟨none, true⟩ ∧
    bayesian_change_point_detection data (.ok []) = ⟨none, true⟩ := by
  by_cases h : data.isEmpty
  · refine ⟨⟨"model construction failed", ?_⟩, ?_, ?_⟩ <;>
      simp [bayesianBody, bayesian_change_point_detection, h]
  · refine ⟨⟨"sampling failed", ?_⟩, ?_, ?_⟩ <;>
      simp [bayesianBody, bayesian_change_point_detection, h]

/-- Claim C4 counterexample: at a concrete two-point series, `calculate_cusum`
returns Python `None` (the method body computes and plots the CUSUM but has no
`return` statement), so no sequence of any length is returned to the caller,
contradicting the claim that the operation returns the CUSUM sequence. -/
theorem claim_C4_counterexample :
    ¬ ∃ ys : List ℚ,
      (calculate_cusum [((0 : Int), (1 : ℚ)), (1, 3)]
        (meanPrice [((0 : Int), (1 : ℚ)), (1, 3)])).returned = some ys := by
  rintro ⟨ys, h⟩
  simp [calculate_cusum] at h

/-- Claim C4 as amended: for every series, `calculate_cusum` internally
computes (and hands to the plotting sink) a sequence of the same length as the
input with entry `i` equal to `Σ_{j ≤ i} (price[j] − mean)` — the empty
sequence on empty input — but returns `None` to its caller rather than that
sequence. -/
theorem claim_C4_amended (data : PriceSeries) (mean : ℚ) :
    (calculate_cusum data mean).returned = none ∧
    (calculate_cusum data mean).plotted.length = data.length ∧
    (∀ i, i < data.length →
      (calculate_cusum data mean).plotted.getD i 0 =
        (((data.map Prod.snd).take (i + 1)).map (fun p => p - mean)).sum) ∧
    (data = [] → (calculate_cusum data mean).plotted = []) := by
  refine ⟨rfl, ?_, ?_, ?_⟩
  · rw [calculate_cusum]
    simp [cumsum_length]
  · intro i hi
    rw [calculate_cusum]
    rw [cumsum_getD _ i (by simpa using hi), List.map_take]
  · intro h
    rw [h]
    rfl

/-- Witness for the amended C4 at a concrete two-point series (mean 2):
the method returns `None`, the plotted CUSUM is `[-1, 0]` of the input's
length with entry 1 matching the claimed sum, and on the empty series the
plotted CUSUM is empty. -/
theorem claim_C4_witness :
    (calculate_cusum [((0 : Int), (1 : ℚ)), (1, 3)] 2).returned = none ∧
    (calculate_cusum [((0 : Int), (1 : ℚ)), (1, 3)] 2).plotted.length =
      ([((0 : Int), (1 : ℚ)), (1, 3)] : PriceSeries).length ∧
    (calculate_cusum [((0 : Int), (1 : ℚ)), (1, 3)] 2).plotted.getD 1 0 =
      (((([((0 : Int), (1 : ℚ)), (1, 3)] : PriceSeries).map Prod.snd).take 2).map
        (fun p => p - 2)).sum ∧
    (calculate_cusum ([] : PriceSeries) 2).plotted = [] ∧
    (calculate_cusum [((0 : Int), (1 : ℚ)), (1, 3)] 2).plotted = [-1, 0] := by
  have h := claim_C4_amended [((0 : Int), (1 : ℚ)), (1, 3)] 2
  have h0 := claim_C4_amended ([] : PriceSeries) 2
  exact ⟨h.1, h.2.1, h.2.2.1 1 (by decide), h0.2.2.2 rfl,
    by norm_num [calculate_cusum, cumsum, cumsumAux]⟩

/-- Claim C5: for every event date and horizon `days ∈ {30, 90, 180}`,
`_calculate_percentage_change` returns
`(price[d+days] − price[d−days]) / price[d−days] × 100` when both exact dates
are present, and `none` (the caught `KeyError`, not an exception to the
caller) when either endpoint date is absent. -/
theorem claim_C5 (data : PriceSeries) (eventDate days : Int) (b a : ℚ)
    (hdays : days = 30 ∨ days = 90 ∨ days = 180) :
    (lookupPrice data (eventDate - days) = some b →
      lookupPrice data (eventDate + days) = some a →
      calculate_percentage_change data eventDate days = some ((a - b) / b * 100)) ∧
    (lookupPrice data (eventDate - days) = none ∨
        lookupPrice data (eventDate + days) = none →
      calculate_percentage_change data eventDate days = none) := by
  constructor
  · intro hb ha
    rw [calculate_percentage_change, hb, ha]
  · rintro (h | h)
    · rw [calculate_percentage_change, h]
    · rw [calculate_percentage_change, h]
      cases lookupPrice data (eventDate - days) <;> rfl

/-- Witness for C5: at a series holding dates 70 and 130, the 30-day change
around date 100 is `(15 − 10)/10 × 100 = 50`; the 90-day change is
unavailable. -/
theorem claim_C5_witness :
    calculate_percentage_change [((70 : Int), (10 : ℚ)), (130, 15)] 100 30 =
      some 50 ∧
    calculate_percentage_change [((70 : Int), (10 : ℚ)), (130, 15)] 100 90 = none := by
  constructor
  · have h := (claim_C5 [((70 : Int), (10 : ℚ)), (130, 15)] 100 30 10 15
      (Or.inl rfl)).1 (by decide) (by decide)
    rw [h]
    norm_num
  · exact (claim_C5 [((70 : Int), (10 : ℚ)), (130, 15)] 100 90 0 0
      (Or.inr (Or.inl rfl))).2 (Or.inl (by decide))

/-- A concrete series for the C6 scenario: seven trading days at a constant
price of 10, covering every horizon date around the in-range event at day 200. -/
def exSeriesC6 : PriceSeries :=
  [(20, 10), (110, 10), (170, 10), (200, 10), (230, 10), (290, 10), (380, 10)]

/-- Claim C6 counterexample: calling `analyze_price_changes_around_events`
with one in-range event ("A", day 200) and one out-of-range event
("B", day 10000) yields an event table whose only row is A's — the
out-of-range event does not appear as a row with unavailable fields; its
`.iloc[-1]` on the empty window raises, the per-event `except` logs a warning,
and the event is skipped entirely, contradicting the claim that it still
appears as a row. -/
theorem claim_C6_counterexample :
    ((analyze_price_changes_around_events exSeriesC6 [("A", 200), ("B", 10000)]).1.map
      (fun r => r.event)) = ["A"] ∧
    (∀ r ∈ (analyze_price_changes_around_events exSeriesC6 [("A", 200), ("B", 10000)]).1,
      r.event ≠ "B") := by
  have h1 : processEvent exSeriesC6 ("A", 200) =
      some ⟨"A", 200, some 0, some 0, some 0, .val 0, .val 0⟩ := by
    norm_num [processEvent, exSeriesC6, preEventWindow, postEventWindow,
      get_prices_around_event, cumulativeReturnCell, prodOneReturns,
      calculate_percentage_change, lookupPrice, List.find?]
  have h2 : processEvent exSeriesC6 ("B", 10000) = none := by
    norm_num [processEvent, exSeriesC6, preEventWindow, postEventWindow,
      get_prices_around_event, cumulativeReturnCell, prodOneReturns,
      calculate_percentage_change, lookupPrice, List.find?]
  constructor
  · simp [analyze_price_changes_around_events, List.filterMap_cons, h1, h2]
  · intro r hr
    simp [analyze_price_changes_around_events, List.filterMap_cons, h1, h2] at hr
    rw [hr]
    decide

/-- Claim C6 as amended: an event whose per-event body succeeds contributes its
fully populated row to the returned table regardless of the other events in
the batch (failure on one event never prevents the others from being
processed); an event whose ±180-day window is empty (e.g. a date outside the
series' range) is skipped with a logged warning and contributes no row; and a
produced row carries the event's name, date and the three exact-date
percentage changes. -/
theorem claim_C6_amended (data : PriceSeries) (events : List (String × Int))
    (e : String) (d : Int) (r : EventRecord) :
    ((e, d) ∈ events → processEvent data (e, d) = some r →
      r ∈ (analyze_price_changes_around_events data events).1) ∧
    (get_prices_around_event data d 180 180 = [] → processEvent data (e, d) = none) ∧
    (processEvent data (e, d) = some r →
      r.event = e ∧ r.date = d ∧
      r.change1M = calculate_percentage_change data d 30 ∧
      r.change3M = calculate_percentage_change data d 90 ∧
      r.change6M = calculate_percentage_change data d 180) := by
  refine ⟨?_, ?_, ?_⟩
  · intro hmem hsome
    rw [analyze_price_changes_around_events]
    exact List.mem_filterMap.mpr ⟨(e, d), hmem, hsome⟩
  · intro h
    simp [processEvent, preEventWindow, postEventWindow, h, cumulativeReturnCell]
  · intro h
    rw [processEvent] at h
    cases hcb : cumulativeReturnCell (preEventWindow data (e, d).2) with
    | error u =>
      rw [hcb] at h
      cases cumulativeReturnCell (postEventWindow data (e, d).2) <;> simp at h
    | ok cb =>
      rw [hcb] at h
      cases hca : cumulativeReturnCell (postEventWindow data (e, d).2) with
      | error u => rw [hca] at h; simp at h
      | ok ca =>
        rw [hca] at h
        cases h
        exact ⟨rfl, rfl, rfl, rfl, rfl⟩

/-- Witness for the amended C6 at the concrete two-event scenario: A's row is
produced, fully populated, and survives into the batch table; B is skipped. -/
theorem claim_C6_witness :
    (⟨"A", 200, some 0, some 0, some 0, .val 0, .val 0⟩ : EventRecord) ∈
      (analyze_price_changes_around_events exSeriesC6 [("A", 200), ("B", 10000)]).1 ∧
    processEvent exSeriesC6 ("B", 10000) = none ∧
    (⟨"A", 200, some 0, some 0, some 0, .val 0, .val 0⟩ : EventRecord).change1M =
      calculate_percentage_change exSeriesC6 200 30 := by
  have hA : processEvent exSeriesC6 ("A", 200) =
      some ⟨"A", 200, some 0, some 0, some 0, .val 0, .val 0⟩ := by
    norm_num [processEvent, exSeriesC6, preEventWindow, postEventWindow,
      get_prices_around_event, cumulativeReturnCell, prodOneReturns,
      calculate_percentage_change, lookupPrice, List.find?]
  refine ⟨?_, ?_, ?_⟩
  · exact (claim_C6_amended exSeriesC6 [("A", 200), ("B", 10000)] "A" 200
      ⟨"A", 200, some 0, some 0, some 0, .val 0, .val 0⟩).1 (by decide) hA
  · exact (claim_C6_amended exSeriesC6 [("A", 200), ("B", 10000)] "B" 10000
      ⟨"A", 200, some 0, some 0, some 0, .val 0, .val 0⟩).2.1
      (by norm_num [get_prices_around_event, exSeriesC6])
  · exact ((claim_C6_amended exSeriesC6 [("A", 200), ("B", 10000)] "A" 200
      ⟨"A", 200, some 0, some 0, some 0, .val 0, .val 0⟩).2.2 hA).2.2.1

/-- Claim C7 (code-bug evidence): at a three-day series ending at day 100 with
the event at day 150, the 180-day pre-event window holds the three prices but
the post-event window `[120, 330]` is empty; `scipy.stats.ttest_ind` on a
degenerate sample returns `NaN` without raising, and `.loc[:event_date]`
slicing on a monotonic index raises no `KeyError`, so the event is NOT skipped
from the statistical table: it receives an entry with `NaN` statistics,
contradicting the claim (and the source's own `"Skipping event ...,
insufficient data"` log message, whose `except KeyError` guard cannot fire on
insufficient data). -/
theorem claim_C7_bug :
    preWindow [((0 : Int), (10 : ℚ)), (50, 12), (100, 11)] 150 = [10, 12, 11] ∧
    postWindow [((0 : Int), (10 : ℚ)), (50, 12), (100, 11)] 150 = [] ∧
    perform_statistical_analysis [((0 : Int), (10 : ℚ)), (50, 12), (100, 11)]
      [("X", 150)] = [("X", TTestVal.nan)] := by
  refine ⟨rfl, rfl, ?_⟩
  rw [perform_statistical_analysis]
  rfl

/-- Claim C9: `analyze_price_changes_around_events` is deterministic in its
inputs — two calls with identical series and event mapping produce identical
event-impact and statistical tables. -/
theorem claim_C9 (data : PriceSeries) (events : List (String × Int))
    (out1 out2 : List EventRecord × List (String × TTestVal))
    (h1 : out1 = analyze_price_changes_around_events data events)
    (h2 : out2 = analyze_price_changes_around_events data events) :
    out1 = out2 :=
  h1.trans h2.symm

/-- Witness for C9 at a concrete one-event call. -/
theorem claim_C9_witness :
    analyze_price_changes_around_events [((0 : Int), (1 : ℚ))] [("E", 0)] =
      analyze_price_changes_around_events [((0 : Int), (1 : ℚ))] [("E", 0)] :=
  claim_C9 [((0 : Int), (1 : ℚ))] [("E", 0)]
    (analyze_price_changes_around_events [((0 : Int), (1 : ℚ))] [("E", 0)])
    (analyze_price_changes_around_events [((0 : Int), (1 : ℚ))] [("E", 0)]) rfl rfl

/-- Claim C10 (frame property): none of the analyzer's core operations —
CUSUM, segmentation, Bayesian change-point detection, event-window extraction,
event-impact analysis — mutates the stored price series: the post-state of
each method call carries `price_data` unchanged (the source methods only read
`self.price_data`; `reset_index()`, filtering and `.loc` slicing all build new
frames). -/
theorem claim_C10 (a : EventChangeAnalyzer) (cost : Nat → Nat → ℚ) (k : Nat)
    (sampler : SamplerResult) (eventDate daysBefore daysAfter : Int)
    (events : List (String × Int)) :
    (a.calculateCusumM).2.price_data = a.price_data ∧
    (a.detectChangePointM cost k).2.price_data = a.price_data ∧
    (a.bayesianChangePointM sampler).2.price_data = a.price_data ∧
    (a.getPricesAroundEventM eventDate daysBefore daysAfter).2.price_data = a.price_data ∧
    (a.analyzeEventsM events).2.price_data = a.price_data :=
  ⟨rfl, rfl, rfl, rfl, rfl⟩

end EventChange
